import Mathlib

/-!
# Verification of the availability engine of the Calendly-clone GraphQL service

Shallow embedding of `src/resolvers/availabilityResolvers.js`.

Modelling conventions:
* Timestamps (JS `Date` values and ISO strings) are modelled as natural
  numbers counting whole minutes since the Unix epoch.  Days are uniform
  (1440 minutes, no DST), matching a UTC reading of the source's local-time
  arithmetic.  Day 0 (Jan 1 1970) is a Thursday, so JS `getDay()` is
  `(day + 4) % 7`.
* The JS `while` loops are embedded with an explicit fuel argument; the fuel
  supplied by the wrappers is at least the number of iterations the loop
  performs (each iteration of the slot loop advances by 30 minutes, each
  iteration of the day walk by one day), so exhausting the fuel coincides
  with the loop condition turning false.
* `Number(...)` applied to the pieces of a `"HH:MM"` time string is modelled
  by `parseJsNat`: digit strings evaluate to their value, the empty string to
  0 (as in JS), anything else to `none` (JS `NaN`).  A `NaN` component makes
  every Date comparison false in JS, so the slot loop body never runs; the
  embedding returns `[]` in that case.
* The SQLite queries of the resolver are modelled as filters/finds over the
  lists of table rows; the stored `availability` JSON text is represented by
  its parse outcome (`none` models text that `JSON.parse` rejects).
-/

namespace Availability

/-- A computed time slot: `{start, end, available}` in the source.  `stop`
models the `end` field (`end` is a Lean keyword). -/
structure TimeSlot where
  start : Nat
  stop : Nat
  available : Bool
deriving DecidableEq

/-- An `appointments` table row, restricted to the columns the availability
code reads: `userId`, `startTime`, `endTime`, `status`. -/
structure Appointment where
  userId : Nat
  startTime : Nat
  endTime : Nat
  status : String
deriving DecidableEq

/-- One entry of the parsed weekly-availability JSON:
`{day, startTime, endTime}` with times as `"HH:MM"` strings. -/
structure DayAvailability where
  day : String
  startTime : String
  endTime : String
deriving DecidableEq

/-- A `schedules` table row; `availability` holds the outcome of
`JSON.parse` on the stored text (`none` = parse failure). -/
structure ScheduleRow where
  userId : Nat
  availability : Option (List DayAvailability)

/-- `const daysOfWeek = ['sunday', ..., 'saturday']` in
`calculateAvailableSlots`. -/
def daysOfWeek : List String :=
  ["sunday", "monday", "tuesday", "wednesday", "thursday", "friday", "saturday"]

/-- Minutes in a day; `currentDate.setDate(currentDate.getDate() + 1)`
advances a timestamp by this much. -/
def minutesPerDay : Nat := 1440

/-- Midnight of the calendar day containing timestamp `t`; the date part
that `setHours` keeps. -/
def dayStart (t : Nat) : Nat := t / minutesPerDay * minutesPerDay

/-- JS `Date.getDay()` for timestamp `t` (0 = Sunday); the epoch day is a
Thursday (index 4). -/
def getDay (t : Nat) : Nat := (t / minutesPerDay + 4) % 7

/-- `daysOfWeek[currentDate.getDay()]` in `calculateAvailableSlots`. -/
def dayOfWeekName (t : Nat) : String := daysOfWeek.getD (getDay t) ""

/-- JS `String.prototype.toLowerCase` on the ASCII day names used here. -/
def strToLower (s : String) : String := ⟨s.data.map Char.toLower⟩

/-- JS `String.prototype.split(sep)` on a single-character separator,
working over the character list of the string. -/
def splitOnCharList (sep : Char) : List Char → List (List Char)
  | [] => [[]]
  | c :: cs =>
    let rest := splitOnCharList sep cs
    if c = sep then [] :: rest
    else
      match rest with
      | r :: rs => (c :: r) :: rs
      | [] => [[c]]

/-- JS `Number(...)` on one piece of a time string, modelled on the
fragment the availability data model prescribes: digit strings evaluate to
their value, the empty string to `0` (as in JS), anything else to `none`
(`NaN`).  JS `Number` additionally accepts signs, surrounding whitespace,
decimals, exponent and hex forms; those are outside this fragment, so every
universal statement in this file whose truth depends on how a time string
parses restricts its hypotheses to digit-form `"HH:MM"` strings
(`wallClockTime`), on which this model and JS `Number` agree. -/
def parseJsNat (l : List Char) : Option Nat :=
  l.foldl
    (fun acc c =>
      acc.bind fun n => if c.isDigit then some (n * 10 + (c.toNat - 48)) else none)
    (some 0)

/-- `startTime.split(':').map(Number)` destructured into `[hour, minute]`.
`none` models a `NaN` component (including a missing minute part, where JS
destructuring yields `undefined` and `Number(undefined)` is `NaN`). -/
def parseTime (s : String) : Option (Nat × Nat) :=
  match splitOnCharList ':' s.data with
  | h :: m :: _ =>
    match parseJsNat h, parseJsNat m with
    | some hv, some mv => some (hv, mv)
    | _, _ => none
  | _ => none

/-- `const slotDurationMinutes = 30` in `generateDayTimeSlots`. -/
def slotDurationMinutes : Nat := 30

/-- The `while (slotStart < availabilityEnd)` loop of
`generateDayTimeSlots`.  Each iteration advances `slotStart` by 30 minutes
and emits the slot only when it does not extend beyond `availEnd`.  The
fuel only bounds the iteration count; the wrapper passes
`availEnd - slotStart`, which is at least the number of iterations (each
one advances by 30 ≥ 1), so the loop always terminates by its own
condition. -/
def generateSlotsLoop : Nat → Nat → Nat → List TimeSlot
  | 0, _, _ => []
  | fuel + 1, slotStart, availEnd =>
    if slotStart < availEnd then
      (if slotStart + slotDurationMinutes ≤ availEnd then
        [⟨slotStart, slotStart + slotDurationMinutes, true⟩]
      else []) ++ generateSlotsLoop fuel (slotStart + slotDurationMinutes) availEnd
    else []

/-- `generateDayTimeSlots(date, dayAvailability)`: parse the entry's
`startTime`/`endTime`, place them on `date`'s calendar day via `setHours`,
and tile 30-minute slots.  A `NaN` time component makes the JS loop
condition false (comparisons with an Invalid Date), so no slots are
produced. -/
def generateDayTimeSlots (date : Nat) (dayAvailability : DayAvailability) :
    List TimeSlot :=
  match parseTime dayAvailability.startTime, parseTime dayAvailability.endTime with
  | some (startHour, startMinute), some (endHour, endMinute) =>
    let slotStart := dayStart date + (startHour * 60 + startMinute)
    let availabilityEnd := dayStart date + (endHour * 60 + endMinute)
    generateSlotsLoop (availabilityEnd - slotStart) slotStart availabilityEnd
  | _, _ => []

/-- The inline conflict test of `filterAvailableSlots`, in the source's
orientation: slot starts inside the appointment, or slot ends inside it, or
slot contains it. -/
def overlapsAppointment (slotStart slotEnd : Nat) (a : Appointment) : Bool :=
  (decide (slotStart ≥ a.startTime) && decide (slotStart < a.endTime)) ||
  (decide (slotEnd > a.startTime) && decide (slotEnd ≤ a.endTime)) ||
  (decide (slotStart ≤ a.startTime) && decide (slotEnd ≥ a.endTime))

/-- `filterAvailableSlots(slots, appointments)`: map over the slots, setting
`available` to the negation of "conflicts with some appointment".  Status is
not consulted here. -/
def filterAvailableSlots (slots : List TimeSlot)
    (appointments : List Appointment) : List TimeSlot :=
  slots.map fun slot =>
    let isConflicting := appointments.any (overlapsAppointment slot.start slot.stop)
    { slot with available := !isConflicting }

/-- `availability.find(slot => slot.day.toLowerCase() === dayOfWeek)` for
the day containing `currentDate`. -/
def findDayAvailability (availability : List DayAvailability)
    (currentDate : Nat) : Option DayAvailability :=
  availability.find? fun slot => strToLower slot.day == dayOfWeekName currentDate

/-- The `while (currentDate <= endDateTime)` day walk of
`calculateAvailableSlots`.  The fuel only bounds the iteration count; the
wrapper passes `(endDate - startDate) / 1440 + 1`, which is exactly the
number of day steps whose loop condition holds, so exhausting the fuel
coincides with the condition turning false. -/
def walkDays (availability : List DayAvailability)
    (appointments : List Appointment) :
    Nat → Nat → Nat → List TimeSlot
  | 0, _, _ => []
  | fuel + 1, currentDate, endDateTime =>
    if currentDate ≤ endDateTime then
      (match findDayAvailability availability currentDate with
       | some dayAvailability =>
         filterAvailableSlots (generateDayTimeSlots currentDate dayAvailability)
           appointments
       | none => []) ++
      walkDays availability appointments fuel (currentDate + minutesPerDay)
        endDateTime
    else []

/-- `calculateAvailableSlots(availability, appointments, startDate,
endDate)`: walk every calendar day from `startDate` to `endDate`
inclusive. -/
def calculateAvailableSlots (availability : List DayAvailability)
    (appointments : List Appointment) (startDate endDate : Nat) :
    List TimeSlot :=
  walkDays availability appointments
    ((endDate - startDate) / minutesPerDay + 1) startDate endDate

/-- The appointment query of the `availableSlots` resolver:
`SELECT * FROM appointments WHERE userId = ? AND startTime >= ? AND
endTime <= ? AND status != "canceled"` over the table rows. -/
def queryAppointments (appointments : List Appointment)
    (userId startDate endDate : Nat) : List Appointment :=
  appointments.filter fun a =>
    a.userId == userId && decide (a.startTime ≥ startDate) &&
      decide (a.endTime ≤ endDate) && a.status != "canceled"

/-- The body of the `try` block of the `availableSlots` resolver: look up
the schedule row (`db.get` returns the first match), fail on a missing row
or unparseable availability text, otherwise query the appointments and run
the engine. -/
def availableSlotsTry (schedules : List ScheduleRow)
    (appointments : List Appointment) (userId startDate endDate : Nat) :
    Except String (List TimeSlot) :=
  match schedules.find? (fun s => s.userId == userId) with
  | none => .error "No schedule found for this user"
  | some scheduleData =>
    match scheduleData.availability with
    | none => .error "Invalid availability data format"
    | some availability =>
      .ok (calculateAvailableSlots availability
        (queryAppointments appointments userId startDate endDate)
        startDate endDate)

/-- The caller-facing `availableSlots` resolver: the surrounding
`catch (error)` replaces every error thrown inside the `try` block with
`'Failed to retrieve available time slots'`. -/
def availableSlots (schedules : List ScheduleRow)
    (appointments : List Appointment) (userId startDate endDate : Nat) :
    Except String (List TimeSlot) :=
  match availableSlotsTry schedules appointments userId startDate endDate with
  | .ok v => .ok v
  | .error _ => .error "Failed to retrieve available time slots"

/-- The appointment list described by the spec's interface contract: the
user's non-canceled appointments whose interval has a nonzero intersection
with the requested range.  Stated from the spec's words, for comparison
with `queryAppointments`. -/
def specRangeAppointments (appointments : List Appointment)
    (userId startDate endDate : Nat) : List Appointment :=
  appointments.filter fun a =>
    a.userId == userId && decide (a.startTime < endDate) &&
      decide (startDate < a.endTime) && a.status != "canceled"

/-- Well-formed wall-clock end time: when the entry's `endTime` parses, it
denotes a minute-of-day of at most 24:00, so the entry's window stays inside
its calendar day. -/
def validEndTime (e : DayAvailability) : Bool :=
  match parseTime e.endTime with
  | some (eh, em) => decide (eh * 60 + em ≤ minutesPerDay)
  | none => true

/-- A nonempty string of decimal digits. -/
def digitString (l : List Char) : Bool :=
  !l.isEmpty && l.all Char.isDigit

/-- The canonical wall-clock time format of the data model (`"HH:MM"`,
formats like `"09:00"` or `"17:30"` per the source comment): the first two
colon-separated pieces — the only ones the source destructures — are
nonempty digit strings.  On exactly these strings the modelled `Number`
(`parseJsNat`) agrees with JS `Number`: no signs, no whitespace, no
decimal/exponent/hex forms, so the parsed value is the plain digit value in
both. -/
def wallClockTime (s : String) : Bool :=
  match splitOnCharList ':' s.data with
  | h :: m :: _ => digitString h && digitString m
  | _ => false

/-- The minute-of-day a time string denotes under `parseTime` (0 when it
does not parse). -/
def timeMinutes (s : String) : Nat :=
  match parseTime s with
  | some (h, m) => h * 60 + m
  | none => 0

/-- Well-formed availability entry: both time strings are in digit-form
`"HH:MM"` wall-clock format and the end time denotes at most 24:00, so the
entry's window stays inside its calendar day.  Digit-form start times are
nonnegative, so the window cannot roll back into the previous day
either. -/
def validWallClockEntry (e : DayAvailability) : Bool :=
  wallClockTime e.startTime && wallClockTime e.endTime &&
    decide (timeMinutes e.endTime ≤ minutesPerDay)

lemma generateSlotsLoop_mem {x : TimeSlot} :
    ∀ {fuel slotStart availEnd : Nat},
      x ∈ generateSlotsLoop fuel slotStart availEnd →
        slotStart ≤ x.start ∧ x.stop = x.start + slotDurationMinutes ∧
          x.stop ≤ availEnd := by
  intro fuel
  induction fuel with
  | zero => intro s e h; simp [generateSlotsLoop] at h
  | succ n ih =>
    intro s e h
    simp only [generateSlotsLoop] at h
    by_cases h1 : s < e
    · rw [if_pos h1] at h
      rcases List.mem_append.mp h with h2 | h2
      · by_cases h3 : s + slotDurationMinutes ≤ e
        · rw [if_pos h3] at h2
          simp only [List.mem_singleton] at h2
          subst h2
          exact ⟨le_refl _, rfl, h3⟩
        · rw [if_neg h3] at h2
          simp at h2
      · obtain ⟨hs, hd, he⟩ := ih h2
        exact ⟨le_trans (Nat.le_add_right _ _) hs, hd, he⟩
    · rw [if_neg h1] at h
      simp at h

lemma generateSlotsLoop_pairwise :
    ∀ (fuel slotStart availEnd : Nat),
      List.Pairwise (fun a b => a.stop ≤ b.start)
        (generateSlotsLoop fuel slotStart availEnd) := by
  intro fuel
  induction fuel with
  | zero => intro s e; simp [generateSlotsLoop]
  | succ n ih =>
    intro s e
    simp only [generateSlotsLoop]
    by_cases h1 : s < e
    · rw [if_pos h1]
      by_cases h3 : s + slotDurationMinutes ≤ e
      · rw [if_pos h3, List.singleton_append]
        refine List.Pairwise.cons ?_ (ih _ _)
        intro b hb
        exact (generateSlotsLoop_mem hb).1
      · rw [if_neg h3, List.nil_append]
        exact ih _ _
    · rw [if_neg h1]
      exact List.Pairwise.nil

lemma generateDayTimeSlots_mem {date : Nat} {da : DayAvailability}
    {x : TimeSlot} (hx : x ∈ generateDayTimeSlots date da) :
    ∃ sh sm eh em, parseTime da.startTime = some (sh, sm) ∧
      parseTime da.endTime = some (eh, em) ∧
      dayStart date + (sh * 60 + sm) ≤ x.start ∧
      x.stop = x.start + slotDurationMinutes ∧
      x.stop ≤ dayStart date + (eh * 60 + em) := by
  unfold generateDayTimeSlots at hx
  cases hs : parseTime da.startTime with
  | none => rw [hs] at hx; simp at hx
  | some p =>
    cases he : parseTime da.endTime with
    | none =>
      obtain ⟨a, b⟩ := p
      rw [hs, he] at hx
      simp at hx
    | some q =>
      obtain ⟨a, b⟩ := p
      obtain ⟨c, d⟩ := q
      rw [hs, he] at hx
      obtain ⟨h1, h2, h3⟩ := generateSlotsLoop_mem hx
      exact ⟨a, b, c, d, rfl, rfl, h1, h2, h3⟩

lemma generateDayTimeSlots_mem_start {date : Nat} {da : DayAvailability}
    {x : TimeSlot} (hx : x ∈ generateDayTimeSlots date da) :
    dayStart date ≤ x.start := by
  obtain ⟨sh, sm, eh, em, _, _, h, _, _⟩ := generateDayTimeSlots_mem hx
  exact le_trans (Nat.le_add_right _ _) h

lemma generateDayTimeSlots_pairwise (date : Nat) (da : DayAvailability) :
    List.Pairwise (fun a b => a.stop ≤ b.start)
      (generateDayTimeSlots date da) := by
  unfold generateDayTimeSlots
  cases hs : parseTime da.startTime with
  | none => exact List.Pairwise.nil
  | some p =>
    cases he : parseTime da.endTime with
    | none =>
      obtain ⟨a, b⟩ := p
      exact List.Pairwise.nil
    | some q =>
      obtain ⟨a, b⟩ := p
      obtain ⟨c, d⟩ := q
      exact generateSlotsLoop_pairwise _ _ _

lemma filterAvailableSlots_mem {slots : List TimeSlot}
    {appts : List Appointment} {s : TimeSlot}
    (hs : s ∈ filterAvailableSlots slots appts) :
    ∃ t ∈ slots, s.start = t.start ∧ s.stop = t.stop ∧
      s.available = !(appts.any (overlapsAppointment t.start t.stop)) := by
  unfold filterAvailableSlots at hs
  obtain ⟨t, ht, h⟩ := List.mem_map.mp hs
  subst h
  exact ⟨t, ht, rfl, rfl, rfl⟩

lemma filterAvailableSlots_pairwise {slots : List TimeSlot}
    {appts : List Appointment}
    (h : List.Pairwise (fun a b => a.stop ≤ b.start) slots) :
    List.Pairwise (fun a b => a.stop ≤ b.start)
      (filterAvailableSlots slots appts) := by
  unfold filterAvailableSlots
  rw [List.pairwise_map]
  exact h

lemma dayStart_add_day (t : Nat) :
    dayStart (t + minutesPerDay) = dayStart t + minutesPerDay := by
  unfold dayStart minutesPerDay
  omega

lemma walkDays_mem {avail : List DayAvailability} {appts : List Appointment}
    {x : TimeSlot} :
    ∀ {fuel cur ed : Nat}, x ∈ walkDays avail appts fuel cur ed →
      dayStart cur ≤ x.start ∧ x.stop = x.start + slotDurationMinutes := by
  intro fuel
  induction fuel with
  | zero => intro cur ed h; simp [walkDays] at h
  | succ n ih =>
    intro cur ed h
    simp only [walkDays] at h
    by_cases h1 : cur ≤ ed
    · rw [if_pos h1] at h
      rcases List.mem_append.mp h with h2 | h2
      · cases hf : findDayAvailability avail cur with
        | none => rw [hf] at h2; simp at h2
        | some da =>
          rw [hf] at h2
          obtain ⟨t, ht, hst, hsp, _⟩ := filterAvailableSlots_mem h2
          obtain ⟨sh, sm, eh, em, _, _, hts, htd, _⟩ :=
            generateDayTimeSlots_mem ht
          constructor
          · rw [hst]
            exact le_trans (Nat.le_add_right _ _) hts
          · rw [hst, hsp, htd]
      · obtain ⟨ha, hb⟩ := ih h2
        refine ⟨le_trans ?_ ha, hb⟩
        rw [dayStart_add_day]
        exact Nat.le_add_right _ _
    · rw [if_neg h1] at h
      simp at h

lemma walkDays_pairwise {avail : List DayAvailability}
    {appts : List Appointment}
    (hval : ∀ e ∈ avail, validEndTime e = true) :
    ∀ (fuel cur ed : Nat),
      List.Pairwise (fun a b => a.stop ≤ b.start)
        (walkDays avail appts fuel cur ed) := by
  intro fuel
  induction fuel with
  | zero => intro cur ed; simp [walkDays]
  | succ n ih =>
    intro cur ed
    simp only [walkDays]
    by_cases h1 : cur ≤ ed
    · rw [if_pos h1]
      rw [List.pairwise_append]
      refine ⟨?_, ih _ _, ?_⟩
      · cases hf : findDayAvailability avail cur with
        | none => exact List.Pairwise.nil
        | some da =>
          exact filterAvailableSlots_pairwise
            (generateDayTimeSlots_pairwise _ _)
      · intro a ha b hb
        cases hf : findDayAvailability avail cur with
        | none => rw [hf] at ha; simp at ha
        | some da =>
          rw [hf] at ha
          have hda : da ∈ avail :=
            List.mem_of_find?_eq_some hf
          obtain ⟨t, ht, hst, hsp, _⟩ := filterAvailableSlots_mem ha
          obtain ⟨sh, sm, eh, em, _, hpe, _, _, hte⟩ :=
            generateDayTimeSlots_mem ht
          have hv := hval da hda
          unfold validEndTime at hv
          rw [hpe] at hv
          have hle : eh * 60 + em ≤ minutesPerDay := of_decide_eq_true hv
          have hb1 : dayStart (cur + minutesPerDay) ≤ b.start :=
            (walkDays_mem hb).1
          rw [dayStart_add_day] at hb1
          calc a.stop = t.stop := hsp
            _ ≤ dayStart cur + (eh * 60 + em) := hte
            _ ≤ dayStart cur + minutesPerDay := Nat.add_le_add_left hle _
            _ ≤ b.start := hb1
    · rw [if_neg h1]
      exact List.Pairwise.nil

lemma queryAppointments_filter_canceled (appts : List Appointment)
    (uid sd ed : Nat) :
    queryAppointments (appts.filter fun a => a.status != "canceled") uid sd ed =
      queryAppointments appts uid sd ed := by
  unfold queryAppointments
  rw [List.filter_filter]
  apply List.filter_congr
  intro a _
  cases hq : a.status != "canceled" <;> simp [hq]

/-- C1 (counterexample): with no schedule row at all, the caller-facing
result is the generic `'Failed to retrieve available time slots'` message,
not the specific `'No schedule found for this user'` one. -/
theorem missing_schedule_specific_message_refuted :
    availableSlots [] [] 1 0 0 =
        .error "Failed to retrieve available time slots" ∧
      "Failed to retrieve available time slots" ≠
        "No schedule found for this user" := by
  constructor
  · rfl
  · decide

/-- C1 (amended): when no schedule row matches the user, the try-block
signals the specific `'No schedule found for this user'` condition before
the engine is invoked, but the surrounding catch replaces it, so the
caller-visible failure is the generic
`'Failed to retrieve available time slots'`. -/
theorem missing_schedule_behavior (schedules : List ScheduleRow)
    (appts : List Appointment) (uid sd ed : Nat)
    (h : schedules.find? (fun s => s.userId == uid) = none) :
    availableSlotsTry schedules appts uid sd ed =
        .error "No schedule found for this user" ∧
      availableSlots schedules appts uid sd ed =
        .error "Failed to retrieve available time slots" := by
  have h1 : availableSlotsTry schedules appts uid sd ed =
      .error "No schedule found for this user" := by
    unfold availableSlotsTry
    rw [h]
  refine ⟨h1, ?_⟩
  unfold availableSlots
  rw [h1]

/-- Witness for C1 (amended) at a concrete store with one schedule row for
a different user. -/
theorem missing_schedule_behavior_witness :
    availableSlotsTry [⟨2, none⟩] [] 1 0 0 =
        .error "No schedule found for this user" ∧
      availableSlots [⟨2, none⟩] [] 1 0 0 =
        .error "Failed to retrieve available time slots" :=
  missing_schedule_behavior [⟨2, none⟩] [] 1 0 0 rfl

/-- C2 (counterexample): the engine itself does not look at appointment
status.  Supplied directly with a single appointment 10:00–10:30 whose
status is `"canceled"` (timestamps in minutes: Monday Jan 5 1970, day start
5760, 10:00 = 6360), it marks the 10:00–10:30 slot unavailable instead of
returning all 6 slots available. -/
theorem engine_conflicts_with_canceled_appointment :
    (calculateAvailableSlots [⟨"monday", "09:00", "12:00"⟩]
        [⟨1, 6360, 6390, "canceled"⟩] 5760 5760).map TimeSlot.available =
      [true, true, false, true, true, true] := by decide

/-- C2 (amended): appointments with status `"canceled"` are excluded by the
caller's appointment query before the engine runs, so they never affect the
caller-facing result: dropping them from the appointment table changes
nothing, and the end-to-end scenario (Monday 09:00–12:00, one canceled
appointment 10:00–10:30) yields all 6 slots available. -/
theorem canceled_excluded_by_caller :
    (∀ (schedules : List ScheduleRow) (appts : List Appointment)
        (uid sd ed : Nat),
       availableSlots schedules appts uid sd ed =
         availableSlots schedules
           (appts.filter fun a => a.status != "canceled") uid sd ed) ∧
      availableSlots [⟨1, some [⟨"monday", "09:00", "12:00"⟩]⟩]
          [⟨1, 6360, 6390, "canceled"⟩] 1 5760 5760 =
        .ok [⟨6300, 6330, true⟩, ⟨6330, 6360, true⟩, ⟨6360, 6390, true⟩,
             ⟨6390, 6420, true⟩, ⟨6420, 6450, true⟩, ⟨6450, 6480, true⟩] := by
  constructor
  · intro schedules appts uid sd ed
    unfold availableSlots availableSlotsTry
    rw [queryAppointments_filter_canceled]
  · rfl

/-- C3 (counterexample): an appointment 5700–6390 (status `"scheduled"`,
right user) straddles the start of the range [5760, 7200]: it intersects
the range, but the resolver's containment query
(`startTime >= startDate AND endTime <= endDate`) excludes it, while the
spec's intersection contract retains it. -/
theorem boundary_appointment_excluded :
    queryAppointments [⟨1, 5700, 6390, "scheduled"⟩] 1 5760 7200 = [] ∧
      specRangeAppointments [⟨1, 5700, 6390, "scheduled"⟩] 1 5760 7200 =
        [⟨1, 5700, 6390, "scheduled"⟩] := by
  constructor <;> rfl

/-- C3 (amended): the appointment list supplied to the engine contains
exactly the user's non-canceled appointments *fully contained* in the
requested range (`startDate ≤ startTime` and `endTime ≤ endDate`);
appointments that only partially overlap a range boundary are excluded. -/
theorem queryAppointments_characterization (a : Appointment)
    (appts : List Appointment) (uid sd ed : Nat) :
    a ∈ queryAppointments appts uid sd ed ↔
      a ∈ appts ∧ a.userId = uid ∧ sd ≤ a.startTime ∧ a.endTime ≤ ed ∧
        a.status ≠ "canceled" := by
  unfold queryAppointments
  simp only [List.mem_filter, Bool.and_eq_true, decide_eq_true_eq,
    beq_iff_eq, bne_iff_ne, ge_iff_le, and_assoc]

/-- C4: the engine's three-case conflict disjunction (slot starts inside
the appointment, slot ends inside it, or slot contains it) is equivalent,
for well-formed intervals, to the reference overlap test
`slotStart < apptEnd ∧ apptStart < slotEnd`; and a filtered slot is
unavailable exactly when the disjunction holds against some supplied
appointment. -/
theorem overlap_predicate_equiv :
    (∀ (slotStart slotEnd : Nat) (a : Appointment),
       slotStart < slotEnd → a.startTime < a.endTime →
       (overlapsAppointment slotStart slotEnd a = true ↔
         (slotStart < a.endTime ∧ a.startTime < slotEnd))) ∧
    (∀ (slots : List TimeSlot) (appts : List Appointment),
       ∀ s ∈ filterAvailableSlots slots appts,
         (s.available = false ↔
           appts.any (overlapsAppointment s.start s.stop) = true)) := by
  constructor
  · intro ss se a h1 h2
    unfold overlapsAppointment
    simp only [Bool.or_eq_true, Bool.and_eq_true, decide_eq_true_eq,
      ge_iff_le, gt_iff_lt]
    omega
  · intro slots appts s hs
    obtain ⟨t, ht, h1, h2, h3⟩ := filterAvailableSlots_mem hs
    rw [h1, h2, h3]
    cases appts.any (overlapsAppointment t.start t.stop) <;> simp

/-- Witness for C4 at concrete intervals (slot 100–130, appointment
90–110) and a concrete filtered slot. -/
theorem overlap_predicate_equiv_witness :
    (overlapsAppointment 100 130 ⟨1, 90, 110, "scheduled"⟩ = true ↔
      ((100 : Nat) < 110 ∧ (90 : Nat) < 130)) ∧
    ((TimeSlot.mk 100 130 false).available = false ↔
      ([⟨1, 90, 110, "scheduled"⟩] : List Appointment).any
        (overlapsAppointment 100 130) = true) :=
  ⟨overlap_predicate_equiv.1 100 130 ⟨1, 90, 110, "scheduled"⟩
    (by decide) (by decide),
   overlap_predicate_equiv.2 [⟨100, 130, true⟩] [⟨1, 90, 110, "scheduled"⟩]
    ⟨100, 130, false⟩ (by decide)⟩

/-- C5: scenario A.  Monday Jan 5 1970 starts at minute 5760; with weekly
availability Monday 09:00–12:00 (minutes 6300–6480), a range covering
exactly that Monday and no appointments, the engine returns the 6
half-hour slots 09:00–09:30 … 11:30–12:00, all available. -/
theorem scenario_a_six_slots :
    calculateAvailableSlots [⟨"monday", "09:00", "12:00"⟩] [] 5760 5760 =
      [⟨6300, 6330, true⟩, ⟨6330, 6360, true⟩, ⟨6360, 6390, true⟩,
       ⟨6390, 6420, true⟩, ⟨6420, 6450, true⟩, ⟨6450, 6480, true⟩] := by
  decide

/-- C6: every slot the engine returns lasts exactly 30 minutes (so
`start < stop`), and every slot generated for a day-entry stays inside the
entry's `[start, end)` window placed on that calendar day — a trailing
partial slot is discarded, never emitted. -/
theorem slot_duration_and_window :
    (∀ (avail : List DayAvailability) (appts : List Appointment)
        (sd ed : Nat), ∀ s ∈ calculateAvailableSlots avail appts sd ed,
       s.stop = s.start + slotDurationMinutes ∧ s.start < s.stop) ∧
    (∀ (date : Nat) (da : DayAvailability) (sh sm eh em : Nat),
       parseTime da.startTime = some (sh, sm) →
       parseTime da.endTime = some (eh, em) →
       ∀ s ∈ generateDayTimeSlots date da,
         dayStart date + (sh * 60 + sm) ≤ s.start ∧
           s.stop ≤ dayStart date + (eh * 60 + em)) := by
  constructor
  · intro avail appts sd ed s hs
    have h := (walkDays_mem hs).2
    refine ⟨h, ?_⟩
    rw [h]
    exact Nat.lt_add_of_pos_right (by decide)
  · intro date da sh sm eh em hps hpe s hs
    obtain ⟨sh2, sm2, eh2, em2, hps2, hpe2, h1, _, h3⟩ :=
      generateDayTimeSlots_mem hs
    rw [hps] at hps2
    rw [hpe] at hpe2
    obtain ⟨rfl, rfl⟩ := Prod.mk.injEq .. ▸ Option.some.inj hps2.symm
    obtain ⟨rfl, rfl⟩ := Prod.mk.injEq .. ▸ Option.some.inj hpe2.symm
    exact ⟨h1, h3⟩

/-- Witness for C6 at scenario A's first slot (09:00–09:30 on Monday
Jan 5 1970). -/
theorem slot_duration_and_window_witness :
    ((6330 : Nat) = 6300 + slotDurationMinutes ∧ (6300 : Nat) < 6330) ∧
    (dayStart 5760 + (9 * 60 + 0) ≤ 6300 ∧
      (6330 : Nat) ≤ dayStart 5760 + (12 * 60 + 0)) :=
  ⟨slot_duration_and_window.1 [⟨"monday", "09:00", "12:00"⟩] [] 5760 5760
    ⟨6300, 6330, true⟩ (by decide),
   slot_duration_and_window.2 5760 ⟨"monday", "09:00", "12:00"⟩ 9 0 12 0
    rfl rfl ⟨6300, 6330, true⟩ (by decide)⟩

lemma parseJsNat_foldl_digits :
    ∀ (l : List Char) (n : Nat), (∀ c ∈ l, c.isDigit = true) →
      List.foldl
        (fun acc c =>
          acc.bind fun k =>
            if c.isDigit then some (k * 10 + (c.toNat - 48)) else none)
        (some n) l = some (l.foldl (fun k c => k * 10 + (c.toNat - 48)) n) := by
  intro l
  induction l with
  | nil => intro n _; rfl
  | cons c cs ih =>
    intro n h
    have hc : c.isDigit = true := h c (by simp)
    simp only [List.foldl_cons, Option.bind, hc, if_true]
    exact ih _ fun d hd => h d (by simp [hd])

lemma parseJsNat_digits {l : List Char} (hd : ∀ c ∈ l, c.isDigit = true) :
    ∃ v, parseJsNat l = some v := by
  unfold parseJsNat
  exact ⟨_, parseJsNat_foldl_digits l 0 hd⟩

lemma parseTime_of_wallClock {s : String} (h : wallClockTime s = true) :
    ∃ hv mv, parseTime s = some (hv, mv) := by
  unfold wallClockTime at h
  unfold parseTime
  cases hs : splitOnCharList ':' s.data with
  | nil => rw [hs] at h; simp at h
  | cons a t =>
    cases t with
    | nil => rw [hs] at h; simp at h
    | cons b t2 =>
      rw [hs] at h
      simp only [digitString, Bool.and_eq_true, Bool.not_eq_true',
        List.all_eq_true] at h
      obtain ⟨⟨_, ha⟩, _, hb⟩ := h
      obtain ⟨v1, hv1⟩ := parseJsNat_digits ha
      obtain ⟨v2, hv2⟩ := parseJsNat_digits hb
      refine ⟨v1, v2, ?_⟩
      simp only [hv1, hv2]

lemma validEndTime_of_wallClock {e : DayAvailability}
    (h : validWallClockEntry e = true) : validEndTime e = true := by
  unfold validWallClockEntry at h
  simp only [Bool.and_eq_true] at h
  obtain ⟨⟨_, h2⟩, h3⟩ := h
  obtain ⟨hv, mv, hp⟩ := parseTime_of_wallClock h2
  unfold timeMinutes at h3
  rw [hp] at h3
  unfold validEndTime
  rw [hp]
  exact h3

/-- C7 (counterexample): the disjointness/ordering property does not hold
for *every* input.  An end time of `"25:00"` (which JS `setHours(25, …)`
rolls into the next calendar day) makes Monday's last slots spill into
Tuesday and collide with Tuesday's own slots: the result sequence is
neither pairwise disjoint nor chronologically ordered. -/
theorem slots_overlap_on_rollover_times :
    ¬ List.Pairwise (fun a b => a.stop ≤ b.start ∧ a.start < b.start)
      (calculateAvailableSlots
        [⟨"monday", "23:00", "25:00"⟩, ⟨"tuesday", "00:00", "01:00"⟩] []
        5760 7200) := by decide

/-- C7 (amended): for every input whose day-entries carry digit-form
`"HH:MM"` wall-clock times — the data model's canonical format, on which
the embedded parser coincides with JS `Number` — with the end time denoting
at most 24:00, the engine's result sequence is strictly chronological and
pairwise disjoint: each slot ends no later than the next one starts.
Outside this format the program itself violates the property (see the
counterexample; JS also accepts e.g. signed or whitespace-padded numbers,
with which a window can roll outside its day the same way). -/
theorem slots_disjoint_and_ordered (avail : List DayAvailability)
    (appts : List Appointment) (sd ed : Nat)
    (hval : ∀ e ∈ avail, validWallClockEntry e = true) :
    List.Pairwise (fun a b => a.stop ≤ b.start ∧ a.start < b.start)
      (calculateAvailableSlots avail appts sd ed) := by
  have hval2 : ∀ e ∈ avail, validEndTime e = true :=
    fun e he => validEndTime_of_wallClock (hval e he)
  have hp := @walkDays_pairwise avail appts hval2
    ((ed - sd) / minutesPerDay + 1) sd ed
  refine List.Pairwise.imp_of_mem ?_ hp
  intro a b ha _ hab
  refine ⟨hab, ?_⟩
  have hd := (walkDays_mem ha).2
  have : a.start < a.stop := by
    rw [hd]
    exact Nat.lt_add_of_pos_right (by decide)
  exact lt_of_lt_of_le this hab

/-- Witness for C7 at scenario A. -/
theorem slots_disjoint_and_ordered_witness :
    List.Pairwise (fun a b => a.stop ≤ b.start ∧ a.start < b.start)
      (calculateAvailableSlots [⟨"monday", "09:00", "12:00"⟩] [] 5760 5760) :=
  slots_disjoint_and_ordered [⟨"monday", "09:00", "12:00"⟩] [] 5760 5760
    (by decide)

/-- C9: when `startDate > endDate` the day walk never executes, so the
engine returns the empty sequence rather than an error. -/
theorem invalid_range_yields_empty (avail : List DayAvailability)
    (appts : List Appointment) (sd ed : Nat) (h : ed < sd) :
    calculateAvailableSlots avail appts sd ed = [] := by
  unfold calculateAvailableSlots
  have h0 : (ed - sd) / minutesPerDay + 1 = 0 + 1 := by
    rw [Nat.sub_eq_zero_of_le (le_of_lt h)]
    rfl
  rw [h0]
  simp only [walkDays]
  rw [if_neg (by omega)]

/-- Witness for C9 at the one-day inverted range (1, 0). -/
theorem invalid_range_yields_empty_witness :
    calculateAvailableSlots [⟨"monday", "09:00", "12:00"⟩] [] 1 0 = [] :=
  invalid_range_yields_empty [⟨"monday", "09:00", "12:00"⟩] [] 1 0
    (by decide)

/-- C10: `filterAvailableSlots` is a frame-preserving map: the output has
the same length as the input and the i-th output slot keeps the i-th input
slot's start and end; only `available` can change. -/
theorem filterAvailableSlots_preserves_slots (slots : List TimeSlot)
    (appts : List Appointment) :
    (filterAvailableSlots slots appts).length = slots.length ∧
      (filterAvailableSlots slots appts).map (fun s => (s.start, s.stop)) =
        slots.map (fun s => (s.start, s.stop)) := by
  unfold filterAvailableSlots
  refine ⟨List.length_map _ _, ?_⟩
  rw [List.map_map]
  rfl

lemma find?_append_first {α : Type} (p : α → Bool) (l₁ l₂ : List α) (a : α)
    (h₁ : ∀ e ∈ l₁, p e = false) (h₂ : p a = true) :
    (l₁ ++ a :: l₂).find? p = some a := by
  induction l₁ with
  | nil =>
    rw [List.nil_append]
    exact List.find?_cons_of_pos _ h₂
  | cons x xs ih =>
    rw [List.cons_append,
      List.find?_cons_of_neg _ (by simp [h₁ x (by simp)])]
    exact ih fun e he => h₁ e (by simp [he])

/-- C8: for one walked day, the engine uses at most one weekly-availability
entry.  If no entry's day matches (case-insensitively) the day's name, the
day contributes zero slots; otherwise the day contributes exactly the
filtered slots of the *first* matching entry, with all later entries —
matching or not — silently ignored. -/
theorem first_match_day_selection (avail : List DayAvailability)
    (appts : List Appointment) (fuel cur ed : Nat) (hle : cur ≤ ed) :
    (findDayAvailability avail cur = none →
       walkDays avail appts (fuel + 1) cur ed =
         walkDays avail appts fuel (cur + minutesPerDay) ed) ∧
    (∀ l₁ da l₂, avail = l₁ ++ da :: l₂ →
       (∀ e ∈ l₁, strToLower e.day ≠ dayOfWeekName cur) →
       strToLower da.day = dayOfWeekName cur →
       walkDays avail appts (fuel + 1) cur ed =
         filterAvailableSlots (generateDayTimeSlots cur da) appts ++
           walkDays avail appts fuel (cur + minutesPerDay) ed) := by
  constructor
  · intro hf
    simp only [walkDays]
    rw [if_pos hle, hf, List.nil_append]
  · intro l₁ da l₂ heq hnone hda
    have hfind : findDayAvailability avail cur = some da := by
      subst heq
      unfold findDayAvailability
      refine find?_append_first _ _ _ _ ?_ ?_
      · intro e he
        simp only [beq_eq_false_iff_ne, ne_eq]
        exact hnone e he
      · simp only [beq_iff_eq]
        exact hda
    simp only [walkDays]
    rw [if_pos hle, hfind]

/-- Witness for C8: a Tuesday-only availability contributes nothing on a
Monday; and with a `"SUNDAY"` entry first, an upper-case `"MONDAY"` entry
second and another lower-case `"monday"` entry third, the Monday walk step
uses only the `"MONDAY"` entry. -/
theorem first_match_day_selection_witness :
    (walkDays [⟨"tuesday", "09:00", "10:00"⟩] [] (0 + 1) 5760 5760 =
       walkDays [⟨"tuesday", "09:00", "10:00"⟩] [] 0
         (5760 + minutesPerDay) 5760) ∧
    (walkDays [⟨"SUNDAY", "01:00", "02:00"⟩, ⟨"MONDAY", "09:00", "10:00"⟩,
         ⟨"monday", "13:00", "14:00"⟩] [] (0 + 1) 5760 5760 =
       filterAvailableSlots
           (generateDayTimeSlots 5760 ⟨"MONDAY", "09:00", "10:00"⟩) [] ++
         walkDays [⟨"SUNDAY", "01:00", "02:00"⟩, ⟨"MONDAY", "09:00", "10:00"⟩,
           ⟨"monday", "13:00", "14:00"⟩] [] 0 (5760 + minutesPerDay) 5760) :=
  ⟨(first_match_day_selection [⟨"tuesday", "09:00", "10:00"⟩] [] 0 5760 5760
      (by decide)).1 rfl,
   (first_match_day_selection [⟨"SUNDAY", "01:00", "02:00"⟩,
        ⟨"MONDAY", "09:00", "10:00"⟩, ⟨"monday", "13:00", "14:00"⟩] [] 0
        5760 5760 (by decide)).2
     [⟨"SUNDAY", "01:00", "02:00"⟩] ⟨"MONDAY", "09:00", "10:00"⟩
     [⟨"monday", "13:00", "14:00"⟩] rfl (by decide) (by decide)⟩

end Availability
